import Mathlib

/-!
Verification of the quant-cloud-init-action repository: a shallow embedding of
the TypeScript source (src/index.ts, the current variant with pull-request
support, the skip_docker_login input and the image_suffix outputs) together
with theorems settling the specified properties.

Modelling conventions.
JS strings are modelled at the level of their character lists; optional action
inputs are strings with "" denoting an absent input (core.getInput returns the
empty string for an unset input, and "" is falsy in JS, so every truthiness
test on an input becomes an emptiness test). Remote API calls and the docker
login subprocess are modelled by explicit outcome parameters; the fatal
core.setFailed-and-return paths are modelled by Except.error.
-/

namespace QuantCloudInit

/-- Characterwise prefix test (match on the candidate first, so that it
computes on a symbolic remainder). -/
def beginsWithChars (p s : List Char) : Bool :=
  match p with
  | [] => true
  | a :: as =>
    match s with
    | [] => false
    | b :: bs => a == b && beginsWithChars as bs

/-- JS `s.startsWith(p)`. -/
def jsStartsWith (s p : String) : Bool :=
  beginsWithChars p.data s.data

/-- JS `s.replace(p, "")` for a literal string `p`, used in the source only
under a `startsWith(p)` guard, where it removes the leading occurrence:
dropping the characters of `p`. -/
def stripLead (p s : String) : String :=
  ⟨s.data.drop p.data.length⟩

/-- The character class `[a-zA-Z0-9]` appearing in the slugging regexes. -/
def isSafeChar (c : Char) : Bool :=
  ('a' ≤ c && c ≤ 'z') || ('A' ≤ c && c ≤ 'Z') || ('0' ≤ c && c ≤ '9')

/-- One character of `replace(/[^a-zA-Z0-9]/g, "-")`: characters outside
`[a-zA-Z0-9]` become `-`. -/
def envReplaceChar (c : Char) : Char :=
  if isSafeChar c then c else '-'

/-- One character of `replace(/[^a-zA-Z0-9.]/g, "-")`: like `envReplaceChar`
but the dot also survives. -/
def imgReplaceChar (c : Char) : Char :=
  if isSafeChar c || c == '.' then c else '-'

/-- JS `s.toLowerCase()`, characterwise. The strings it is applied to in the
source are outputs of the replaces above, hence ASCII, where JS lower-casing
agrees with `Char.toLower`. -/
def toLowerCaseStr (s : String) : String :=
  ⟨s.data.map Char.toLower⟩

/-- `branch.replace(/[^a-zA-Z0-9]/g, "-").toLowerCase()` — the slug used for
environment names (and for the override-based image suffix). -/
def safeEnvSlug (s : String) : String :=
  toLowerCaseStr ⟨s.data.map envReplaceChar⟩

/-- `branch.replace(/[^a-zA-Z0-9.]/g, "-").toLowerCase()` — the slug used for
image suffixes, which keeps dots. -/
def safeImgSlug (s : String) : String :=
  toLowerCaseStr ⟨s.data.map imgReplaceChar⟩

/-- Source `isProductionBranch`: the production branch set is
`[masterBranchOverride]` when that input is truthy, else `["main", "master"]`. -/
def isProductionBranch (branch : String) (masterBranchOverride : String) : Bool :=
  let productionBranches :=
    if masterBranchOverride ≠ "" then [masterBranchOverride] else ["main", "master"]
  productionBranches.contains branch

/-- Source `isTag`. -/
def isTag (ref : String) : Bool :=
  jsStartsWith ref "refs/tags/"

/-- Source `isPullRequest`. -/
def isPullRequest (ref : String) : Bool :=
  jsStartsWith ref "refs/pull/"

/-- Source `extractPullRequestId`: the regex match
`ref.match(/^refs\/pull\/(\d+)\//)` succeeds iff after `refs/pull/` there is a
non-empty maximal digit run followed by `/`; the captured group is that run. -/
def extractPullRequestId (ref : String) : Option String :=
  if jsStartsWith ref "refs/pull/" then
    let rest := (stripLead "refs/pull/" ref).data
    let digits := rest.takeWhile Char.isDigit
    if digits.isEmpty then none
    else if (rest.drop digits.length).head? = some '/' then some ⟨digits⟩
    else none
  else none

/-- JS truthiness of a `string | null` value: non-null and non-empty. -/
def truthyOpt (o : Option String) : Bool :=
  match o with
  | some s => s != ""
  | none => false

/-- Source `generateEnvironmentName`. -/
def generateEnvironmentName (branch environmentNameOverride masterBranchOverride : String)
    (isTagRef isPrRef : Bool) (prId : Option String) : String :=
  if environmentNameOverride ≠ "" then environmentNameOverride
  else if isTagRef then "production"
  else if isPrRef && truthyOpt prId then "pr-" ++ prId.getD ""
  else if isProductionBranch branch masterBranchOverride then "production"
  else if branch = "develop" then "develop"
  else if jsStartsWith branch "feature/" then safeEnvSlug branch
  else safeEnvSlug branch

/-- Source `generateImageSuffix`. -/
def generateImageSuffix (branch masterBranchOverride : String)
    (isTagRef isPrRef : Bool) (prId : Option String) : String :=
  if isTagRef then "-" ++ branch
  else if isPrRef && truthyOpt prId then "-pr-" ++ prId.getD ""
  else if isProductionBranch branch masterBranchOverride then "-latest"
  else if branch = "develop" then "-develop"
  else if jsStartsWith branch "feature/" then "-" ++ safeImgSlug branch
  else "-" ++ safeImgSlug branch

/-- Source `stripProtocol`: `endpoint.replace(/^https?:\/\//, "")`. -/
def stripProtocol (endpoint : String) : String :=
  if jsStartsWith endpoint "https://" then stripLead "https://" endpoint
  else if jsStartsWith endpoint "http://" then stripLead "http://" endpoint
  else endpoint

/-- The anchored dash replace applied to `imageSuffix` for the
`image_suffix_clean` output: removes one leading dash when present. -/
def stripLeadingDash (s : String) : String :=
  match s.data with
  | [] => s
  | c :: cs => if c = '-' then ⟨cs⟩ else s

/-- JS `s.split("/")`, characterwise. -/
def splitOnSlashAux : List Char → List (List Char)
  | [] => [[]]
  | c :: cs =>
    let r := splitOnSlashAux cs
    if c = '/' then [] :: r
    else
      match r with
      | [] => [[c]]
      | h :: t => (c :: h) :: t

/-- JS `githubRepository.split("/")`. -/
def jsSplitOnSlash (s : String) : List String :=
  (splitOnSlashAux s.data).map fun l => ⟨l⟩

/-- The branch/tag/pull-request classification at the start of `run`
(the `refs/tags/`, `refs/pull/`, `refs/heads/` cascade): produces
(branch, isTag, isPr, prId) or the fatal message from `core.setFailed`. -/
def classifyRef (githubRef : String) : Except String (String × Bool × Bool × Option String) :=
  if isTag githubRef then
    .ok (stripLead "refs/tags/" githubRef, true, false, none)
  else if isPullRequest githubRef then
    match extractPullRequestId githubRef with
    | none => .error ("Could not extract pull request ID from ref: " ++ githubRef)
    | some prId => .ok ("pr-" ++ prId, false, true, some prId)
  else if jsStartsWith githubRef "refs/heads/" then
    .ok (stripLead "refs/heads/" githubRef, false, false, none)
  else
    .error ("Unknown ref format: " ++ githubRef)

/-- The resolved, purely derived quantities of one run. -/
structure ResolvedTarget where
  branch : String
  isTagRef : Bool
  isPrRef : Bool
  prId : Option String
  applicationName : Option String
  isProduction : Bool
  environmentName : String
  imageSuffix : String
deriving Repr, DecidableEq

/-- The field computations of `run` after ref classification: application
name (repository segment after the first slash, or the override), the
production flag (override suppresses branch-based inference), environment
name, and image suffix (override path slugs the override). -/
def mkTarget (branch : String) (isTagRef isPrRef : Bool) (prId : Option String)
    (githubRepository applicationOverride masterBranchOverride environmentNameOverride : String) :
    ResolvedTarget :=
  let applicationName : Option String :=
    if applicationOverride ≠ "" then some applicationOverride
    else (jsSplitOnSlash githubRepository)[1]?
  let isProduction : Bool :=
    if environmentNameOverride ≠ "" then isTagRef
    else isProductionBranch branch masterBranchOverride || isTagRef
  let environmentName :=
    generateEnvironmentName branch environmentNameOverride masterBranchOverride isTagRef isPrRef prId
  let imageSuffix : String :=
    if environmentNameOverride ≠ "" then "-" ++ safeEnvSlug environmentNameOverride
    else generateImageSuffix branch masterBranchOverride isTagRef isPrRef prId
  ⟨branch, isTagRef, isPrRef, prId, applicationName, isProduction, environmentName, imageSuffix⟩

/-- The pure front part of `run`: the GitHub-context guard, ref
classification, and target resolution. All of this happens before any API
client is used. -/
def resolve (githubRef githubRepository applicationOverride masterBranchOverride environmentNameOverride : String) :
    Except String ResolvedTarget :=
  if githubRef = "" ∨ githubRepository = "" then
    .error "GitHub context not available. This action must run in a GitHub Actions workflow."
  else
    match classifyRef githubRef with
    | .error e => .error e
    | .ok (branch, isTagRef, isPrRef, prId) =>
      .ok (mkTarget branch isTagRef isPrRef prId githubRepository
            applicationOverride masterBranchOverride environmentNameOverride)

/-- Outcome of one remote API call: success with a payload, or an error
carrying the optional HTTP status of `error.response?.status`. -/
inductive ApiOutcome (α : Type) where
  | ok (value : α)
  | err (status : Option Nat)
deriving Repr

/-- The `data` payload of `getEcrLoginCredentials`; each field may be absent
or empty (both falsy in JS). -/
structure EcrCreds where
  endpoint : Option String
  username : Option String
  password : Option String
deriving Repr, DecidableEq

/-- The `status === 422 || status === 401 || status === 403` test used by the
validation catch blocks. -/
def isAuthOrValidationStatus : Option Nat → Bool
  | some s => s == 422 || s == 401 || s == 403
  | none => false

/-- The validation block of `run` (listApplications, the ECR-credentials
validation probe, getApplication, getEnvironment), returning the fatal
message or the pair (projectExists, environmentExists).

Per the source: any listApplications error is fatal; an ECR probe error is
fatal only for status 422/401/403 (otherwise a warning); a getApplication
error is fatal for status 422/401/403 and otherwise records
`projectExists = false`; a getEnvironment error of any kind records
`environmentExists = false`. A missing password in a successful ECR probe
response only logs a warning. -/
def validate (listApps : ApiOutcome Unit) (ecr : ApiOutcome EcrCreds)
    (getApp : ApiOutcome Unit) (getEnv : ApiOutcome Unit) (organization : String) :
    Except String (Bool × Bool) :=
  match listApps with
  | .err _ => .error ("Organization " ++ organization ++ " does not exist or is not accessible")
  | .ok _ =>
    let ecrFatal :=
      match ecr with
      | .ok _ => false
      | .err status => isAuthOrValidationStatus status
    if ecrFatal then
      .error "Failed to validate organization credentials"
    else
      match getApp with
      | .ok _ =>
        match getEnv with
        | .ok _ => .ok (true, true)
        | .err _ => .ok (true, false)
      | .err status =>
        if isAuthOrValidationStatus status then
          .error "Failed to validate application"
        else
          match getEnv with
          | .ok _ => .ok (false, true)
          | .err _ => .ok (false, false)

/-- In-memory registry credentials. -/
structure Credentials where
  endpoint : String
  username : String
  password : String
deriving Repr, DecidableEq

/-- The `hasCredentials` computation of the login block: a successful
retrieval with truthy password, endpoint and username. -/
def retrievedCredentials (ecr : ApiOutcome EcrCreds) : Option Credentials :=
  match ecr with
  | .err _ => none
  | .ok d =>
    if truthyOpt d.password && truthyOpt d.endpoint && truthyOpt d.username then
      some ⟨d.endpoint.getD "", d.username.getD "", d.password.getD ""⟩
    else none

/-- Terminal state of the login block when it does not fail. -/
structure FinalState where
  loginPerformed : Bool
  strippedEndpointOutput : Option String
deriving Repr, DecidableEq

/-- The registry-login block of `run`: with credentials, docker login runs
unless skipped (a login failure propagates to the outer catch and is fatal)
and the stripped endpoint is output; without credentials, skipping is a valid
terminal state and not skipping is fatal. `dockerLoginOk` models whether the
`docker login` subprocess would succeed. -/
def finalPhase (ecr : ApiOutcome EcrCreds) (skipDockerLogin dockerLoginOk : Bool) :
    Except String FinalState :=
  match retrievedCredentials ecr with
  | some c =>
    if skipDockerLogin then
      .ok ⟨false, some (stripProtocol c.endpoint)⟩
    else if dockerLoginOk then
      .ok ⟨true, some (stripProtocol c.endpoint)⟩
    else
      .error "Docker login failed"
  | none =>
    if skipDockerLogin then
      .ok ⟨false, none⟩
    else
      .error "Failed to retrieve Quant Cloud Image Registry credentials and login was not skipped"

/-- The step outputs set at the end of a successful run. -/
structure Outputs where
  projectExists : Bool
  environmentExists : Bool
  quantApplication : Option String
  environmentName : String
  isProduction : Bool
  strippedEndpoint : Option String
  imageSuffix : String
  imageSuffixClean : String
deriving Repr, DecidableEq

/-- Result of a whole run: the outcome (outputs are published exactly when it
is `ok`), whether any remote API call was attempted, and whether docker login
was performed. -/
structure RunResult where
  outcome : Except String Outputs
  remoteCallsAttempted : Bool
  dockerLoginPerformed : Bool

/-- The whole of `run`, with every external interaction an explicit
parameter: pure resolution first (no remote call on its failure), then the
validation block, then the login block, then the outputs. -/
def runAction (githubRef githubRepository applicationOverride masterBranchOverride environmentNameOverride : String)
    (organization : String)
    (listApps : ApiOutcome Unit) (ecrValidation : ApiOutcome EcrCreds)
    (getApp getEnv : ApiOutcome Unit) (ecrLogin : ApiOutcome EcrCreds)
    (skipDockerLogin dockerLoginOk : Bool) : RunResult :=
  match resolve githubRef githubRepository applicationOverride masterBranchOverride environmentNameOverride with
  | .error e => ⟨.error e, false, false⟩
  | .ok t =>
    match validate listApps ecrValidation getApp getEnv organization with
    | .error e => ⟨.error e, true, false⟩
    | .ok (projectExists, environmentExists) =>
      match finalPhase ecrLogin skipDockerLogin dockerLoginOk with
      | .error e => ⟨.error e, true, false⟩
      | .ok fs =>
        ⟨.ok { projectExists := projectExists
               environmentExists := environmentExists
               quantApplication := t.applicationName
               environmentName := t.environmentName
               isProduction := t.isProduction
               strippedEndpoint := fs.strippedEndpointOutput
               imageSuffix := t.imageSuffix
               imageSuffixClean := stripLeadingDash t.imageSuffix },
         true, fs.loginPerformed⟩

/-! Helper lemmas -/

lemma classifyRef_tags (t : String) :
    classifyRef ("refs/tags/" ++ t) = .ok (t, true, false, none) := by
  obtain ⟨l⟩ := t
  rfl

lemma classifyRef_heads (b : String) :
    classifyRef ("refs/heads/" ++ b) = .ok (b, false, false, none) := by
  obtain ⟨l⟩ := b
  rfl

lemma tags_ref_ne_empty (t : String) : ("refs/tags/" ++ t : String) ≠ "" := by
  obtain ⟨l⟩ := t
  intro h
  exact absurd (congrArg String.data h) (by simp)

lemma heads_ref_ne_empty (b : String) : ("refs/heads/" ++ b : String) ≠ "" := by
  obtain ⟨l⟩ := b
  intro h
  exact absurd (congrArg String.data h) (by simp)

lemma resolve_eq_of_classify {ref repo aO mO eO : String} {b : String} {iT iP : Bool}
    {pid : Option String} (h1 : ref ≠ "") (h2 : repo ≠ "")
    (hc : classifyRef ref = .ok (b, iT, iP, pid)) :
    resolve ref repo aO mO eO = .ok (mkTarget b iT iP pid repo aO mO eO) := by
  unfold resolve
  rw [if_neg (by push_neg; exact ⟨h1, h2⟩), hc]

lemma resolve_ok_inv {ref repo aO mO eO : String} {t : ResolvedTarget}
    (h : resolve ref repo aO mO eO = .ok t) :
    ∃ b iT iP pid, classifyRef ref = .ok (b, iT, iP, pid) ∧
      t = mkTarget b iT iP pid repo aO mO eO := by
  unfold resolve at h
  by_cases hc : ref = "" ∨ repo = ""
  · rw [if_pos hc] at h
    cases h
  · rw [if_neg hc] at h
    rcases hC : classifyRef ref with e | ⟨b, iT, iP, pid⟩
    · rw [hC] at h
      cases h
    · rw [hC] at h
      refine ⟨b, iT, iP, pid, rfl, ?_⟩
      injection h with h'
      exact h'.symm

lemma classifyRef_ok_isTag {ref b : String} {iT iP : Bool} {pid : Option String}
    (h : classifyRef ref = .ok (b, iT, iP, pid)) : iT = isTag ref := by
  unfold classifyRef at h
  by_cases h1 : isTag ref
  · rw [if_pos h1] at h
    injection h with h'
    simp only [Prod.mk.injEq] at h'
    rw [h1]
    exact h'.2.1.symm
  · rw [if_neg h1] at h
    rw [Bool.not_eq_true] at h1
    rw [h1]
    by_cases h2 : isPullRequest ref
    · rw [if_pos h2] at h
      rcases hE : extractPullRequestId ref with _ | prid
      · rw [hE] at h
        cases h
      · rw [hE] at h
        injection h with h'
        simp only [Prod.mk.injEq] at h'
        exact h'.2.1.symm
    · rw [if_neg h2] at h
      by_cases h3 : jsStartsWith ref "refs/heads/"
      · rw [if_pos h3] at h
        injection h with h'
        simp only [Prod.mk.injEq] at h'
        exact h'.2.1.symm
      · rw [if_neg h3] at h
        cases h

lemma stripLeadingDash_dash_append (s : String) : stripLeadingDash ("-" ++ s) = s := by
  obtain ⟨l⟩ := s
  rfl

lemma dash_append_ne_empty (s : String) : ("-" ++ s : String) ≠ "" := by
  obtain ⟨l⟩ := s
  intro h
  exact absurd (congrArg String.data h) (by simp)

lemma dash_append_head (s : String) : ("-" ++ s : String).data.head? = some '-' := by
  obtain ⟨l⟩ := s
  rfl

/-- Every branch of the image-suffix computation in `mkTarget` prepends one
dash to a remainder string. -/
lemma mkTarget_imageSuffix_form (b : String) (iT iP : Bool) (pid : Option String)
    (repo aO mO eO : String) :
    ∃ s, (mkTarget b iT iP pid repo aO mO eO).imageSuffix = "-" ++ s := by
  show ∃ s, (if eO ≠ "" then "-" ++ safeEnvSlug eO
      else generateImageSuffix b mO iT iP pid) = "-" ++ s
  by_cases hE : eO ≠ ""
  · exact ⟨safeEnvSlug eO, by rw [if_pos hE]⟩
  · rw [if_neg hE]
    unfold generateImageSuffix
    by_cases h1 : iT = true
    · exact ⟨b, by rw [if_pos h1]⟩
    · rw [if_neg h1]
      by_cases h2 : (iP && truthyOpt pid) = true
      · refine ⟨"pr-" ++ pid.getD "", ?_⟩
        rw [if_pos h2]
        obtain ⟨l⟩ : ∃ l, pid.getD "" = l := ⟨_, rfl⟩
        obtain ⟨cs⟩ := pid.getD ""
        rfl
      · rw [if_neg h2]
        by_cases h3 : isProductionBranch b mO = true
        · exact ⟨"latest", by rw [if_pos h3]; rfl⟩
        · rw [if_neg h3]
          by_cases h4 : b = "develop"
          · exact ⟨"develop", by rw [if_pos h4]; rfl⟩
          · rw [if_neg h4]
            by_cases h5 : jsStartsWith b "feature/" = true
            · exact ⟨safeImgSlug b, by rw [if_pos h5]⟩
            · exact ⟨safeImgSlug b, by rw [if_neg h5]⟩

lemma char_toNat_ofNat_of_lt {n : Nat} (h : n < 55296) : (Char.ofNat n).toNat = n := by
  unfold Char.ofNat
  rw [dif_pos (Or.inl h)]
  rfl

/-- The composite environment-slug character map never produces a dot. -/
lemma envSlugChar_ne_dot (c : Char) : Char.toLower (envReplaceChar c) ≠ '.' := by
  by_cases hs : isSafeChar c = true
  · simp only [envReplaceChar, if_pos hs]
    simp only [Char.toLower]
    by_cases hu : Char.toNat c ≥ 65 ∧ Char.toNat c ≤ 90
    · rw [if_pos hu]
      intro he
      have h1 : (Char.ofNat (Char.toNat c + 32)).toNat = Char.toNat '.' := congrArg Char.toNat he
      obtain ⟨hu1, hu2⟩ := hu
      rw [char_toNat_ofNat_of_lt (by omega)] at h1
      have h2 : Char.toNat '.' = 46 := rfl
      omega
    · rw [if_neg hu]
      intro he
      rw [he] at hs
      exact absurd hs (by decide)
  · simp only [envReplaceChar, if_neg hs]
    decide

/-- Off the dot, the two slug character maps agree. -/
lemma env_img_agree (c : Char) (h : c ≠ '.') :
    Char.toLower (envReplaceChar c) = Char.toLower (imgReplaceChar c) := by
  have hd : (c == '.') = false := beq_eq_false_iff_ne.mpr h
  cases hsv : isSafeChar c <;> simp [envReplaceChar, imgReplaceChar, hsv, hd]

lemma splitOnSlashAux_no_slash (l : List Char) (h : ∀ c ∈ l, c ≠ '/') :
    splitOnSlashAux l = [l] := by
  induction l with
  | nil => rfl
  | cons c cs ih =>
    have hc : c ≠ '/' := h c (List.mem_cons_self c cs)
    have ht : splitOnSlashAux cs = [cs] := ih fun x hx => h x (List.mem_cons_of_mem c hx)
    simp only [splitOnSlashAux, ht, if_neg hc]

lemma beginsWithChars_iff_append (p l : List Char) :
    beginsWithChars p l = true ↔ ∃ r, l = p ++ r := by
  induction p generalizing l with
  | nil =>
    constructor
    · intro _
      exact ⟨l, rfl⟩
    · intro _
      rfl
  | cons a as ih =>
    cases l with
    | nil =>
      constructor
      · intro h
        cases h
      · rintro ⟨r, hr⟩
        cases hr
    | cons b bs =>
      constructor
      · intro h
        rw [show beginsWithChars (a :: as) (b :: bs) = ((a == b) && beginsWithChars as bs)
            from rfl, Bool.and_eq_true, beq_iff_eq] at h
        obtain ⟨r, hr⟩ := (ih bs).mp h.2
        exact ⟨r, by rw [hr, h.1, List.cons_append]⟩
      · rintro ⟨r, hr⟩
        injection hr with h1 h2
        rw [show beginsWithChars (a :: as) (b :: bs) = ((a == b) && beginsWithChars as bs)
            from rfl, Bool.and_eq_true, beq_iff_eq]
        exact ⟨h1.symm, (ih bs).mpr ⟨r, h2⟩⟩

lemma tags_false_of_pull {ref : String} (h : jsStartsWith ref "refs/pull/" = true) :
    jsStartsWith ref "refs/tags/" = false := by
  obtain ⟨r, hr⟩ := (beginsWithChars_iff_append _ _).mp h
  unfold jsStartsWith
  rw [hr]
  rfl

/-! Claim theorems -/

/-- C1: for every ref classified as a tag (ref begins with the tag prefix),
the resolved isProduction flag is true; when no environment-name override is
supplied, the environment name is production and the image suffix is a dash
followed by the tag name verbatim. -/
theorem tag_ref_production_outputs (tagName repo aO mO eO : String) (h : repo ≠ "") :
    ∃ t, resolve ("refs/tags/" ++ tagName) repo aO mO eO = .ok t ∧
      t.isProduction = true ∧
      (eO = "" → t.environmentName = "production" ∧ t.imageSuffix = "-" ++ tagName) := by
  refine ⟨mkTarget tagName true false none repo aO mO eO,
    resolve_eq_of_classify (tags_ref_ne_empty tagName) h (classifyRef_tags tagName), ?_, ?_⟩
  · show (if eO ≠ "" then true else isProductionBranch tagName mO || true) = true
    by_cases hE : eO ≠ ""
    · rw [if_pos hE]
    · rw [if_neg hE, Bool.or_true]
  · intro hE
    subst hE
    exact ⟨rfl, rfl⟩

/-- C1 witness: the literal tag name v1.2.0 yields isProduction = true,
environmentName = production, imageSuffix = -v1.2.0. -/
theorem tag_ref_production_outputs_witness :
    ("octo/app" : String) ≠ "" ∧
    ∃ t, resolve ("refs/tags/" ++ "v1.2.0") "octo/app" "" "" "" = .ok t ∧
      t.isProduction = true ∧
      t.environmentName = "production" ∧ t.imageSuffix = "-" ++ "v1.2.0" := by
  obtain ⟨t, h1, h2, h3⟩ := tag_ref_production_outputs "v1.2.0" "octo/app" "" "" "" (by decide)
  exact ⟨by decide, t, h1, h2, h3 rfl⟩

/-- C2: whenever an environment-name override is present, the environment
name equals the override verbatim, isProduction holds exactly when the ref is
a tag, and the image suffix is a dash followed by the slugged override. -/
theorem override_environment_outputs (ref repo aO mO eO : String) (t : ResolvedTarget)
    (hE : eO ≠ "") (h : resolve ref repo aO mO eO = .ok t) :
    t.environmentName = eO ∧ t.isProduction = isTag ref ∧
      t.imageSuffix = "-" ++ safeEnvSlug eO := by
  obtain ⟨b, iT, iP, pid, hc, ht⟩ := resolve_ok_inv h
  subst ht
  refine ⟨?_, ?_, ?_⟩
  · show generateEnvironmentName b eO mO iT iP pid = eO
    unfold generateEnvironmentName
    rw [if_pos hE]
  · show (if eO ≠ "" then iT else isProductionBranch b mO || iT) = isTag ref
    rw [if_pos hE, classifyRef_ok_isTag hc]
  · show (if eO ≠ "" then "-" ++ safeEnvSlug eO else generateImageSuffix b mO iT iP pid)
        = "-" ++ safeEnvSlug eO
    rw [if_pos hE]

/-- C2 witness: the override qa.env on a branch ref yields isProduction
false, environmentName qa.env, imageSuffix -qa-env. -/
theorem override_environment_outputs_witness :
    ("qa.env" : String) ≠ "" ∧
    resolve "refs/heads/topic" "octo/app" "" "" "qa.env"
      = .ok (mkTarget "topic" false false none "octo/app" "" "" "qa.env") ∧
    ((mkTarget "topic" false false none "octo/app" "" "" "qa.env").environmentName = "qa.env" ∧
      (mkTarget "topic" false false none "octo/app" "" "" "qa.env").isProduction
        = isTag "refs/heads/topic" ∧
      (mkTarget "topic" false false none "octo/app" "" "" "qa.env").imageSuffix
        = "-" ++ safeEnvSlug "qa.env") ∧
    (mkTarget "topic" false false none "octo/app" "" "" "qa.env").isProduction = false ∧
    (mkTarget "topic" false false none "octo/app" "" "" "qa.env").imageSuffix = "-qa-env" :=
  ⟨by decide, rfl,
    override_environment_outputs "refs/heads/topic" "octo/app" "" "" "qa.env" _ (by decide) rfl,
    by decide, by decide⟩

/-- C5: for branch refs with no environment-name override, isProduction holds
exactly when the branch is in the production set — the default pair main and
master, or exactly the override singleton — and in that case the environment
name is production and the image suffix is -latest. -/
theorem production_branch_set_outputs (branch repo aO mO : String) (h : repo ≠ "") :
    ∃ t, resolve ("refs/heads/" ++ branch) repo aO mO "" = .ok t ∧
      (t.isProduction = true ↔
        (if mO = "" then branch = "main" ∨ branch = "master" else branch = mO)) ∧
      (t.isProduction = true → t.environmentName = "production" ∧ t.imageSuffix = "-latest") := by
  refine ⟨mkTarget branch false false none repo aO mO "",
    resolve_eq_of_classify (heads_ref_ne_empty branch) h (classifyRef_heads branch), ?_, ?_⟩
  · show (isProductionBranch branch mO || false) = true ↔ _
    rw [Bool.or_false]
    unfold isProductionBranch
    by_cases hM : mO = ""
    · rw [if_pos hM, if_neg (by simp [hM])]
      simp
    · rw [if_neg hM, if_pos (by simp [hM])]
      simp
  · intro hP
    have hPB : isProductionBranch branch mO = true := by
      have : (isProductionBranch branch mO || false) = true := hP
      simpa using this
    constructor
    · show generateEnvironmentName branch "" mO false false none = "production"
      simp [generateEnvironmentName, hPB]
    · show generateImageSuffix branch mO false false none = "-latest"
      simp [generateImageSuffix, hPB]

/-- C5 witness: the default production set at branch main. -/
theorem production_branch_set_outputs_witness :
    ("octo/app" : String) ≠ "" ∧
    ∃ t, resolve ("refs/heads/" ++ "main") "octo/app" "" "" "" = .ok t ∧
      t.isProduction = true ∧ t.environmentName = "production" ∧ t.imageSuffix = "-latest" := by
  obtain ⟨t, h1, h2, h3⟩ := production_branch_set_outputs "main" "octo/app" "" "" (by decide)
  have hp : t.isProduction = true := h2.mpr (by simp)
  exact ⟨by decide, t, h1, hp, h3 hp⟩

/-- C9: for every successfully resolved input the image suffix is non-empty,
begins with a dash, and is a dash prepended to a remainder string, on every
branch of the suffix generation including the override path. -/
theorem image_suffix_leading_dash (ref repo aO mO eO : String) (t : ResolvedTarget)
    (h : resolve ref repo aO mO eO = .ok t) :
    t.imageSuffix ≠ "" ∧ t.imageSuffix.data.head? = some '-' ∧
      ∃ s, t.imageSuffix = "-" ++ s := by
  obtain ⟨b, iT, iP, pid, hc, ht⟩ := resolve_ok_inv h
  obtain ⟨s, hs⟩ := mkTarget_imageSuffix_form b iT iP pid repo aO mO eO
  subst ht
  rw [hs]
  exact ⟨dash_append_ne_empty s, dash_append_head s, s, rfl⟩

/-- C9 witness at a pull-request ref. -/
theorem image_suffix_leading_dash_witness :
    resolve "refs/pull/42/merge" "octo/app" "" "" ""
      = .ok (mkTarget "pr-42" false true (some "42") "octo/app" "" "" "") ∧
    ((mkTarget "pr-42" false true (some "42") "octo/app" "" "" "").imageSuffix ≠ "" ∧
     (mkTarget "pr-42" false true (some "42") "octo/app" "" "" "").imageSuffix.data.head?
        = some '-' ∧
     ∃ s, (mkTarget "pr-42" false true (some "42") "octo/app" "" "" "").imageSuffix = "-" ++ s) :=
  ⟨rfl, image_suffix_leading_dash "refs/pull/42/merge" "octo/app" "" "" "" _ rfl⟩

/-- C10: with no application-name override and a repository identifier
containing no slash, the derived application name (index 1 of the split) is
absent rather than a fatal input error: the run still resolves. -/
theorem repo_without_slash_application_none (branch repo mO eO : String)
    (h1 : repo ≠ "") (h2 : '/' ∉ repo.data) :
    ∃ t, resolve ("refs/heads/" ++ branch) repo "" mO eO = .ok t ∧
      t.applicationName = none := by
  refine ⟨mkTarget branch false false none repo "" mO eO,
    resolve_eq_of_classify (heads_ref_ne_empty branch) h1 (classifyRef_heads branch), ?_⟩
  show (if ("" : String) ≠ "" then some "" else (jsSplitOnSlash repo)[1]?) = none
  rw [if_neg (by simp)]
  unfold jsSplitOnSlash
  rw [splitOnSlashAux_no_slash repo.data fun c hc he => h2 (he ▸ hc)]
  rfl

/-- C10 witness: repository identifier norepo. -/
theorem repo_without_slash_application_none_witness :
    ("norepo" : String) ≠ "" ∧ '/' ∉ ("norepo" : String).data ∧
    ∃ t, resolve ("refs/heads/" ++ "dev") "norepo" "" "" "" = .ok t ∧
      t.applicationName = none :=
  ⟨by decide, by decide,
    repo_without_slash_application_none "dev" "norepo" "" "" (by decide) (by decide)⟩

/-- C6: on every published run, the image_suffix_clean output is the
image_suffix output with its single leading dash stripped, and prepending a
dash to image_suffix_clean recovers image_suffix exactly. -/
theorem image_suffix_clean_round_trip
    (ref repo aO mO eO org : String) (lA : ApiOutcome Unit) (eV : ApiOutcome EcrCreds)
    (gA gE : ApiOutcome Unit) (eL : ApiOutcome EcrCreds) (skip loginOk : Bool)
    (out : Outputs)
    (h : (runAction ref repo aO mO eO org lA eV gA gE eL skip loginOk).outcome = .ok out) :
    out.imageSuffixClean = stripLeadingDash out.imageSuffix ∧
      "-" ++ out.imageSuffixClean = out.imageSuffix := by
  unfold runAction at h
  rcases hR : resolve ref repo aO mO eO with e | t
  · rw [hR] at h
    cases h
  · rw [hR] at h
    rcases hV : validate lA eV gA gE org with e | ⟨pe, ee⟩
    · rw [hV] at h
      cases h
    · rw [hV] at h
      rcases hF : finalPhase eL skip loginOk with e | fs
      · rw [hF] at h
        cases h
      · rw [hF] at h
        injection h with h'
        obtain ⟨b, iT, iP, pid, hc, ht⟩ := resolve_ok_inv hR
        obtain ⟨s, hs⟩ := mkTarget_imageSuffix_form b iT iP pid repo aO mO eO
        rw [← ht] at hs
        subst h'
        refine ⟨rfl, ?_⟩
        show "-" ++ stripLeadingDash t.imageSuffix = t.imageSuffix
        rw [hs, stripLeadingDash_dash_append]

/-- C6 witness on a concrete successful run. -/
theorem image_suffix_clean_round_trip_witness :
    ∃ out, (runAction "refs/heads/dev" "octo/app" "" "" "" "org" (.ok ())
        (.ok ⟨some "https://r.io", some "u", some "p"⟩) (.ok ()) (.ok ())
        (.ok ⟨some "https://r.io", some "u", some "p"⟩) false true).outcome = .ok out ∧
      out.imageSuffixClean = stripLeadingDash out.imageSuffix ∧
      "-" ++ out.imageSuffixClean = out.imageSuffix := by
  refine ⟨_, rfl, ?_⟩
  exact image_suffix_clean_round_trip "refs/heads/dev" "octo/app" "" "" "" "org" (.ok ())
    (.ok ⟨some "https://r.io", some "u", some "p"⟩) (.ok ()) (.ok ())
    (.ok ⟨some "https://r.io", some "u", some "p"⟩) false true _ rfl

/-- C8: a ref matching none of the tag, pull-request or branch-head prefixes,
or a pull-request ref from which no numeric id can be extracted, terminates
the run fatally with a descriptive message before any remote API call. -/
theorem unparseable_ref_fatal_no_remote_calls
    (ref repo aO mO eO org : String) (lA : ApiOutcome Unit) (eV : ApiOutcome EcrCreds)
    (gA gE : ApiOutcome Unit) (eL : ApiOutcome EcrCreds) (skip loginOk : Bool)
    (h1 : ref ≠ "") (h2 : repo ≠ "")
    (h3 : (jsStartsWith ref "refs/tags/" = false ∧ jsStartsWith ref "refs/pull/" = false ∧
           jsStartsWith ref "refs/heads/" = false) ∨
          (jsStartsWith ref "refs/pull/" = true ∧ extractPullRequestId ref = none)) :
    ∃ msg, runAction ref repo aO mO eO org lA eV gA gE eL skip loginOk
      = ⟨.error msg, false, false⟩ := by
  have hres : ∃ msg, resolve ref repo aO mO eO = .error msg := by
    have hguard : ¬(ref = "" ∨ repo = "") := by
      push_neg
      exact ⟨h1, h2⟩
    rcases h3 with ⟨ha, hb, hc⟩ | ⟨ha, hb⟩
    · refine ⟨"Unknown ref format: " ++ ref, ?_⟩
      unfold resolve classifyRef isTag isPullRequest
      rw [if_neg hguard, ha, hb, hc]
      rfl
    · refine ⟨"Could not extract pull request ID from ref: " ++ ref, ?_⟩
      unfold resolve classifyRef isTag isPullRequest
      rw [if_neg hguard, tags_false_of_pull ha, ha, hb]
      rfl
  obtain ⟨msg, hm⟩ := hres
  refine ⟨msg, ?_⟩
  unfold runAction
  rw [hm]

/-- C8 witness: an unrecognized ref, and a pull-request ref without a
numeric id. -/
theorem unparseable_ref_fatal_no_remote_calls_witness :
    (∃ msg, runAction "badref" "octo/app" "" "" "" "org" (.ok ())
        (.ok ⟨none, none, none⟩) (.ok ()) (.ok ()) (.ok ⟨none, none, none⟩) false true
        = ⟨.error msg, false, false⟩) ∧
    (∃ msg, runAction "refs/pull/abc/merge" "octo/app" "" "" "" "org" (.ok ())
        (.ok ⟨none, none, none⟩) (.ok ()) (.ok ()) (.ok ⟨none, none, none⟩) false true
        = ⟨.error msg, false, false⟩) :=
  ⟨unparseable_ref_fatal_no_remote_calls "badref" "octo/app" "" "" "" "org" (.ok ())
      (.ok ⟨none, none, none⟩) (.ok ()) (.ok ()) (.ok ⟨none, none, none⟩) false true
      (by decide) (by decide) (.inl ⟨by decide, by decide, by decide⟩),
   unparseable_ref_fatal_no_remote_calls "refs/pull/abc/merge" "octo/app" "" "" "" "org" (.ok ())
      (.ok ⟨none, none, none⟩) (.ok ()) (.ok ()) (.ok ⟨none, none, none⟩) false true
      (by decide) (by decide) (.inr ⟨by decide, by decide⟩)⟩

/-- C4 counterexample: a 401 authorization error on the environment-existence
lookup is not fatal in the code — the claim that the environment lookup
treats 401, 403, 422 like the application check does would require a fatal
error here, but validate returns a success with environmentExists false. -/
theorem env_auth_error_nonfatal_cex :
    validate (.ok ()) (.ok ⟨some "e", some "u", some "p"⟩) (.ok ()) (.err (some 401)) "org"
      = .ok (true, false) := rfl

/-- C4 (amended): a not-found result on the application- or
environment-existence lookup is never fatal and records false; the
environment-existence lookup treats every error, including 401, 403, 422, as
not-found, while the application check is fatal exactly on 401, 403, 422. -/
theorem lookup_notfound_policy (d : EcrCreds) (org : String) (sApp sEnv : Option Nat) :
    (isAuthOrValidationStatus sApp = false →
      validate (.ok ()) (.ok d) (.err sApp) (.err sEnv) org = .ok (false, false)) ∧
    validate (.ok ()) (.ok d) (.ok ()) (.err sEnv) org = .ok (true, false) ∧
    (isAuthOrValidationStatus sApp = true →
      validate (.ok ()) (.ok d) (.err sApp) (.err sEnv) org
        = .error "Failed to validate application") := by
  refine ⟨?_, rfl, ?_⟩
  · intro h
    simp [validate, h]
  · intro h
    simp [validate, h]

/-- C4 witness: 404 on the application lookup is non-fatal, 401 on it is
fatal, and any error on the environment lookup records false. -/
theorem lookup_notfound_policy_witness :
    (isAuthOrValidationStatus (some 404) = false ∧
      validate (.ok ()) (.ok ⟨none, none, none⟩) (.err (some 404)) (.err (some 500)) "o"
        = .ok (false, false)) ∧
    validate (.ok ()) (.ok ⟨none, none, none⟩) (.ok ()) (.err (some 500)) "o"
      = .ok (true, false) ∧
    (isAuthOrValidationStatus (some 401) = true ∧
      validate (.ok ()) (.ok ⟨none, none, none⟩) (.err (some 401)) (.err (some 500)) "o"
        = .error "Failed to validate application") :=
  ⟨⟨rfl, (lookup_notfound_policy ⟨none, none, none⟩ "o" (some 404) (some 500)).1 rfl⟩,
   (lookup_notfound_policy ⟨none, none, none⟩ "o" (some 404) (some 500)).2.1,
   ⟨rfl, (lookup_notfound_policy ⟨none, none, none⟩ "o" (some 401) (some 500)).2.2 rfl⟩⟩

/-- C7: with the earlier phases successful, the run fails exactly when docker
login is required (not skipped) and impossible (no credentials, or the login
command fails); skipping with no credentials is a valid terminal state with
outputs published and no login performed, and not skipping with no
credentials is fatal before outputs are published. -/
theorem docker_login_skip_policy
    (ref repo aO mO eO org : String) (lA : ApiOutcome Unit) (eV : ApiOutcome EcrCreds)
    (gA gE : ApiOutcome Unit) (eL : ApiOutcome EcrCreds) (skip loginOk : Bool)
    (t : ResolvedTarget) (p : Bool × Bool)
    (hr : resolve ref repo aO mO eO = .ok t)
    (hv : validate lA eV gA gE org = .ok p) :
    ((∃ out, (runAction ref repo aO mO eO org lA eV gA gE eL skip loginOk).outcome = .ok out) ↔
      ¬(skip = false ∧ (retrievedCredentials eL = none ∨ loginOk = false))) ∧
    (retrievedCredentials eL = none → skip = true →
      (∃ out, (runAction ref repo aO mO eO org lA eV gA gE eL skip loginOk).outcome = .ok out) ∧
      (runAction ref repo aO mO eO org lA eV gA gE eL skip loginOk).dockerLoginPerformed
        = false) ∧
    (retrievedCredentials eL = none → skip = false →
      (runAction ref repo aO mO eO org lA eV gA gE eL skip loginOk).outcome
        = .error "Failed to retrieve Quant Cloud Image Registry credentials and login was not skipped") := by
  unfold runAction
  rw [hr, hv]
  obtain ⟨pe, ee⟩ := p
  rcases hC : retrievedCredentials eL with _ | c <;> cases skip <;> cases loginOk <;>
    simp [finalPhase, hC]

/-- C7 witness: a concrete run with no retrievable credentials, once with the
skip flag (valid terminal state, no login) and once without (fatal). -/
theorem docker_login_skip_policy_witness :
    ((∃ out, (runAction "refs/heads/main" "octo/app" "" "" "" "org" (.ok ())
        (.ok ⟨none, none, none⟩) (.ok ()) (.ok ()) (.err none) true true).outcome
        = .ok out) ∧
     (runAction "refs/heads/main" "octo/app" "" "" "" "org" (.ok ())
        (.ok ⟨none, none, none⟩) (.ok ()) (.ok ()) (.err none) true true).dockerLoginPerformed
       = false) ∧
    (runAction "refs/heads/main" "octo/app" "" "" "" "org" (.ok ())
        (.ok ⟨none, none, none⟩) (.ok ()) (.ok ()) (.err none) false true).outcome
      = .error "Failed to retrieve Quant Cloud Image Registry credentials and login was not skipped" :=
  ⟨(docker_login_skip_policy "refs/heads/main" "octo/app" "" "" "" "org" (.ok ())
      (.ok ⟨none, none, none⟩) (.ok ()) (.ok ()) (.err none) true true
      (mkTarget "main" false false none "octo/app" "" "" "") (true, true) rfl rfl).2.1 rfl rfl,
   (docker_login_skip_policy "refs/heads/main" "octo/app" "" "" "" "org" (.ok ())
      (.ok ⟨none, none, none⟩) (.ok ()) (.ok ()) (.err none) false true
      (mkTarget "main" false false none "octo/app" "" "" "") (true, true) rfl rfl).2.2 rfl rfl⟩

/-- C3: for non-production, non-develop branch names the environment name is
the branch with every character outside the safe class, the dot included,
replaced by a dash and lower-cased, so it never contains a dot, while the
image suffix is a dash plus the slug that keeps dots and replaces only the
other unsafe characters; the two characterwise slug maps agree everywhere
except on the dot. -/
theorem slugging_dot_treatment (branch mO : String)
    (h1 : isProductionBranch branch mO = false) (h2 : branch ≠ "develop") :
    generateEnvironmentName branch "" mO false false none = safeEnvSlug branch ∧
    '.' ∉ (generateEnvironmentName branch "" mO false false none).data ∧
    generateImageSuffix branch mO false false none = "-" ++ safeImgSlug branch ∧
    (∀ c : Char, c ≠ '.' → Char.toLower (envReplaceChar c) = Char.toLower (imgReplaceChar c)) ∧
    Char.toLower (imgReplaceChar '.') = '.' ∧
    Char.toLower (envReplaceChar '.') = '-' ∧
    ('.' ∈ branch.data → '.' ∈ (safeImgSlug branch).data) := by
  have henv : generateEnvironmentName branch "" mO false false none = safeEnvSlug branch := by
    unfold generateEnvironmentName
    by_cases hf : jsStartsWith branch "feature/" = true <;>
      simp [h1, h2, hf]
  refine ⟨henv, ?_, ?_, env_img_agree, by decide, by decide, ?_⟩
  · rw [henv]
    intro hmem
    simp only [safeEnvSlug, toLowerCaseStr, List.map_map, List.mem_map] at hmem
    obtain ⟨c, -, hc⟩ := hmem
    exact envSlugChar_ne_dot c hc
  · unfold generateImageSuffix
    by_cases hf : jsStartsWith branch "feature/" = true <;>
      simp [h1, h2, hf]
  · intro hmem
    simp only [safeImgSlug, toLowerCaseStr, List.map_map, List.mem_map]
    exact ⟨'.', hmem, by decide⟩

/-- C3 witness at the branch name Bug.Fix_x: the environment name loses the
dot, the image suffix keeps it, and the two character maps agree at an
underscore. -/
theorem slugging_dot_treatment_witness :
    (isProductionBranch "Bug.Fix_x" "" = false ∧ ("Bug.Fix_x" : String) ≠ "develop") ∧
    generateEnvironmentName "Bug.Fix_x" "" "" false false none = safeEnvSlug "Bug.Fix_x" ∧
    '.' ∉ (generateEnvironmentName "Bug.Fix_x" "" "" false false none).data ∧
    generateImageSuffix "Bug.Fix_x" "" false false none = "-" ++ safeImgSlug "Bug.Fix_x" ∧
    Char.toLower (envReplaceChar '_') = Char.toLower (imgReplaceChar '_') ∧
    Char.toLower (imgReplaceChar '.') = '.' ∧
    Char.toLower (envReplaceChar '.') = '-' ∧
    '.' ∈ (safeImgSlug "Bug.Fix_x").data := by
  obtain ⟨e1, e2, e3, e4, e5, e6, e7⟩ :=
    slugging_dot_treatment "Bug.Fix_x" "" (by decide) (by decide)
  exact ⟨⟨by decide, by decide⟩, e1, e2, e3, e4 '_' (by decide), e5, e6, e7 (by decide)⟩

end QuantCloudInit
